import Mathlib

/-!
Verification development for a paginated REST-API client
(`main.py` of the pydantic demo repository).

The development embeds, as executable Lean definitions:

* the JSON values that `requests.Response.json()` hands to the client
  (`Json` below; JSON numbers appearing in this API are integers);
* the three pydantic (v1) models `Person`, `Book` and
  `ListBooksResponse` declared in the source, together with the
  semantics of `Model.parse_obj` on such JSON values — including
  pydantic v1's lenient field validators (`int`, `str`, `bool`,
  `list`, `dict`, `Optional`), its treatment of `Optional` fields as
  having an implicit `None` default, and its silent ignoring of
  unknown keys;
* pydantic's `.dict()` serialization of those models back to JSON;
* the pagination generator `Gutendex.list_of_books`, both run to
  exhaustion and consumed for a fixed number of records, against an
  abstract HTTP session.
-/

/-- JSON values as delivered by the HTTP layer's `.json()` decoding.
Objects are association lists of string keys (Python parses JSON
objects to `dict`s, whose keys are unique; the valid-document
predicates below require key uniqueness where it matters).  Number
literals in this API are integers. -/
inductive Json where
  | null : Json
  | bool (b : Bool) : Json
  | int (n : Int) : Json
  | str (s : String) : Json
  | arr (xs : List Json) : Json
  | obj (es : List (String × Json)) : Json

/-- Key lookup in a JSON object, as Python `dict` access by key
(first binding wins; parsed JSON objects have unique keys). -/
def findField (k : String) : List (String × Json) → Option Json
  | [] => none
  | (k', v) :: rest => if k' = k then some v else findField k rest

/-- ASCII decimal digit test, as used by Python `int(str)`. -/
def isDigitChar (c : Char) : Bool := '0' ≤ c && c ≤ '9'

/-- Numeric value of the digits of a numeral, skipping the group
underscores Python permits inside integer literals. -/
def digitsValue (cs : List Char) : Nat :=
  cs.foldl (fun n c => if isDigitChar c then 10 * n + (c.toNat - 48) else n) 0

/-- No two adjacent underscores, as Python requires in `int("1_0")`. -/
def noDoubleUnderscore : List Char → Bool
  | a :: b :: rest => !(a == '_' && b == '_') && noDoubleUnderscore (b :: rest)
  | _ => true

/-- Shape of the digit part accepted by Python `int(str)`: nonempty,
digits with optional single interior group underscores. -/
def pyIntDigits (cs : List Char) : Bool :=
  match cs with
  | [] => false
  | _ =>
    cs.all (fun c => isDigitChar c || c == '_') &&
    isDigitChar (cs.headD '0') && isDigitChar (cs.getLastD '0') &&
    noDoubleUnderscore cs

/-- ASCII whitespace as stripped by Python `int(str)`. -/
def isPySpace (c : Char) : Bool :=
  c == ' ' || c == '\t' || c == '\n' || c == '\r' || c == '\x0b' || c == '\x0c'

/-- Removal of leading and trailing whitespace, as Python `str.strip`
over ASCII input. -/
def stripChars (cs : List Char) : List Char :=
  ((cs.dropWhile isPySpace).reverse.dropWhile isPySpace).reverse

/-- Python `int(s)` on an ASCII string: surrounding whitespace is
stripped, an optional sign precedes the digits. -/
def pyParseInt (s : String) : Option Int :=
  match stripChars s.toList with
  | '+' :: rest => if pyIntDigits rest then some (Int.ofNat (digitsValue rest)) else none
  | '-' :: rest => if pyIntDigits rest then some (-(Int.ofNat (digitsValue rest))) else none
  | cs => if pyIntDigits cs then some (Int.ofNat (digitsValue cs)) else none

/-- pydantic v1 `int` field validator: an `int` is taken as is, a
`bool` is converted (`int(True) == 1`), a string is parsed with
Python `int`; everything else is an error. -/
def int_validator : Json → Option Int
  | .int n => some n
  | .bool b => some (if b then 1 else 0)
  | .str s => pyParseInt s
  | _ => none

/-- pydantic v1 `str` field validator: a string is taken as is, and
ints and bools are converted with Python `str` (bools via the
`isinstance(v, int)` branch, so `str(True) == "True"`); `null`,
arrays and objects are errors. -/
def str_validator : Json → Option String
  | .str s => some s
  | .int n => some (toString n)
  | .bool b => some (if b then "True" else "False")
  | _ => none

/-- pydantic v1 `bool` field validator: bools are taken as is, the
ints 0 and 1 and the usual truthy/falsy strings (lower-cased) are
converted; everything else is an error. -/
def bool_validator : Json → Option Bool
  | .bool b => some b
  | .int n => if n = 1 then some true else if n = 0 then some false else none
  | .str s =>
    let l := s.toLower
    if l = "1" || l = "on" || l = "t" || l = "true" || l = "y" || l = "yes" then some true
    else if l = "0" || l = "off" || l = "f" || l = "false" || l = "n" || l = "no" then some false
    else none
  | _ => none

/-- pydantic v1 `dict` field validator on JSON input: a JSON object
is accepted as the mapping it denotes, with no constraint on its
values (the source declares the field as bare `dict`).  Bodies come
from `.json()`, where every mapping is a JSON object. -/
def dict_validator : Json → Option (List (String × Json))
  | .obj es => some es
  | _ => none

/-- Element-wise validation of a list: succeeds with the list of
validated elements exactly when every element validates. -/
def validateEach (val : Json → Option α) : List Json → Option (List α)
  | [] => some []
  | x :: xs =>
    match val x, validateEach val xs with
    | some a, some as => some (a :: as)
    | _, _ => none

/-- pydantic v1 `list[α]` field validator: only an array is accepted
(strings are not sequences here), and each element is validated. -/
def listOf (val : Json → Option α) : Json → Option (List α)
  | .arr xs => validateEach val xs
  | _ => none

/-- Validation-failure taxonomy: a pydantic `ValidationError` either
reports a missing required field or a field whose value could not be
validated or converted. -/
inductive ValidationError where
  | missing (field : String)
  | wrongType (field : String)
deriving DecidableEq, Repr

/-- A required model field: absent keys are an error, present values
go through the field validator. -/
def requiredField (es : List (String × Json)) (k : String) (val : Json → Option α) :
    Except ValidationError α :=
  match findField k es with
  | none => .error (.missing k)
  | some j =>
    match val j with
    | none => .error (.wrongType k)
    | some a => .ok a

/-- An `Optional[α]` model field in pydantic v1: an absent key
defaults to `None` (v1 gives `Optional` fields an implicit `None`
default), an explicit `null` is `None`, and any other value goes
through the field validator. -/
def optionalField (es : List (String × Json)) (k : String) (val : Json → Option α) :
    Except ValidationError (Option α) :=
  match findField k es with
  | none => .ok none
  | some .null => .ok none
  | some j =>
    match val j with
    | none => .error (.wrongType k)
    | some a => .ok (some a)

/-- The `Person` model of the source: `birth_year: Optional[int]`,
`death_year: Optional[int]`, `name: str`. -/
structure Person where
  birth_year : Option Int
  death_year : Option Int
  name : String
deriving DecidableEq, Repr

/-- `Person.parse_obj` on a JSON value: the input must be a mapping
(bodies from `.json()` only contain JSON objects), unknown keys are
ignored, and each declared field is validated as in pydantic v1. -/
def Person.parse_obj : Json → Except ValidationError Person
  | .obj es => do
    let birth_year ← optionalField es "birth_year" int_validator
    let death_year ← optionalField es "death_year" int_validator
    let name ← requiredField es "name" str_validator
    pure { birth_year := birth_year, death_year := death_year, name := name }
  | _ => .error (.wrongType "Person")

/-- The `Book` model of the source, field for field: note that
`formats` is declared as a bare `dict` and `download_count` as a bare
`int`. -/
structure Book where
  id : Int
  title : String
  subjects : List String
  authors : List Person
  translators : List Person
  bookshelves : List String
  languages : List String
  copyright : Option Bool
  media_type : String
  formats : List (String × Json)
  download_count : Int

/-- `Book.parse_obj` on a JSON value, with pydantic v1 field
validators applied in declaration order. -/
def Book.parse_obj : Json → Except ValidationError Book
  | .obj es => do
    let id ← requiredField es "id" int_validator
    let title ← requiredField es "title" str_validator
    let subjects ← requiredField es "subjects" (listOf str_validator)
    let authors ← requiredField es "authors" (listOf (fun j => (Person.parse_obj j).toOption))
    let translators ← requiredField es "translators" (listOf (fun j => (Person.parse_obj j).toOption))
    let bookshelves ← requiredField es "bookshelves" (listOf str_validator)
    let languages ← requiredField es "languages" (listOf str_validator)
    let copyright ← optionalField es "copyright" bool_validator
    let media_type ← requiredField es "media_type" str_validator
    let formats ← requiredField es "formats" dict_validator
    let download_count ← requiredField es "download_count" int_validator
    pure { id := id, title := title, subjects := subjects, authors := authors,
           translators := translators, bookshelves := bookshelves, languages := languages,
           copyright := copyright, media_type := media_type, formats := formats,
           download_count := download_count }
  | _ => .error (.wrongType "Book")

/-- The `ListBooksResponse` model of the source: `count: int`,
`next: Optional[str]`, `previous: Optional[str]`,
`results: list[Book]`. -/
structure ListBooksResponse where
  count : Int
  next : Option String
  previous : Option String
  results : List Book

/-- `ListBooksResponse.parse_obj` — the page decoding the fetch loop
performs on each response body (the spec's `decode_page`). -/
def ListBooksResponse.parse_obj : Json → Except ValidationError ListBooksResponse
  | .obj es => do
    let count ← requiredField es "count" int_validator
    let next ← optionalField es "next" str_validator
    let previous ← optionalField es "previous" str_validator
    let results ← requiredField es "results" (listOf (fun j => (Book.parse_obj j).toOption))
    pure { count := count, next := next, previous := previous, results := results }
  | _ => .error (.wrongType "ListBooksResponse")

/-- JSON encoding of an optional integer, as pydantic serializes
`Optional[int]`: `None` becomes `null`. -/
def optIntJson : Option Int → Json
  | none => .null
  | some n => .int n

/-- `Person.dict()` / `Person.json()`: all declared fields are
emitted, in declaration order, with `None` serialized as `null` (the
default `exclude_none=False`). -/
def Person.dict (p : Person) : Json :=
  .obj [("birth_year", optIntJson p.birth_year),
        ("death_year", optIntJson p.death_year),
        ("name", .str p.name)]

/-- `Book.dict()` / `Book.json()`: all declared fields in declaration
order, nested models serialized recursively, `None` as `null`. -/
def Book.dict (b : Book) : Json :=
  .obj [("id", .int b.id),
        ("title", .str b.title),
        ("subjects", .arr (b.subjects.map Json.str)),
        ("authors", .arr (b.authors.map Person.dict)),
        ("translators", .arr (b.translators.map Person.dict)),
        ("bookshelves", .arr (b.bookshelves.map Json.str)),
        ("languages", .arr (b.languages.map Json.str)),
        ("copyright", match b.copyright with | none => Json.null | some x => Json.bool x),
        ("media_type", .str b.media_type),
        ("formats", .obj b.formats),
        ("download_count", .int b.download_count)]

/-- An HTTP response as seen by the fetch loop: a status code and the
JSON decoding of the body. -/
structure HttpResponse where
  status : Nat
  body : Json

/-- The HTTP layer: `session.get(url=url, params=params)` abstracted
as a function from the request URL and the optional caller-supplied
query parameters (of some type `P`) to a response. -/
def Session (P : Type) := String → Option P → HttpResponse

/-- `requests.Response.raise_for_status()` raises exactly for client
and server error codes, i.e. for 400 <= status < 600. -/
def raisesForStatus (s : Nat) : Bool :=
  decide (400 ≤ s) && decide (s < 600)

/-- The fixed base endpoint of the `Gutendex` dataclass. -/
def Gutendex.endpoint : String := "https://gutendex.com/books/"

/-- Outcome of running the generator to exhaustion. -/
inductive FetchOutcome where
  | done
  | transportError (status : Nat) (body : Json)
  | schemaError (e : ValidationError)
  | outOfFuel

/-- The `Gutendex.list_of_books` generator, run until the consumer
has drained it, starting from a given URL and parameters.  Returns
the list of HTTP requests issued (URL plus the parameters attached),
the records yielded, and how the traversal ended.  The loop body
follows the source line by line: GET, `raise_for_status` (a non-2xx
raises before the body is parsed), `parse_obj`, yield the page's
`results`, then `url = response.next; params = None` and `if not
url: break` (Python treats both `None` and the empty string as
falsy).  The `fuel` argument bounds the number of iterations, since
the Python `while True` loop itself has no bound. -/
def Gutendex.list_of_books {P : Type} (session : Session P) :
    Nat → String → Option P → List (String × Option P) × List Book × FetchOutcome
  | 0, _, _ => ([], [], .outOfFuel)
  | fuel + 1, url, params =>
    let r := session url params
    if raisesForStatus r.status then
      ([(url, params)], [], .transportError r.status r.body)
    else
      match ListBooksResponse.parse_obj r.body with
      | .error e => ([(url, params)], [], .schemaError e)
      | .ok response =>
        match response.next with
        | none => ([(url, params)], response.results, .done)
        | some u' =>
          if u' = "" then ([(url, params)], response.results, .done)
          else
            let rest := Gutendex.list_of_books session fuel u' none
            ((url, params) :: rest.1, response.results ++ rest.2.1, rest.2.2)

/-- Outcome of a partial consumption of the generator: `suspended`
means the consumer stopped asking while the generator could still
produce, `done` means the generator itself finished first. -/
inductive TakeOutcome where
  | suspended
  | done
  | transportError (status : Nat) (body : Json)
  | schemaError (e : ValidationError)
  | outOfFuel

/-- The `Gutendex.list_of_books` generator when the consumer pulls at
most `k` records and then stops (as in `zip(api.list_of_books(),
range(k))`).  Generator semantics: the first request happens on the
first pull; after a page's records are exhausted the next request
happens only when the consumer pulls again; if the consumer stops
while records of the current page are still pending (or exactly at
the last record of the page), the generator is left suspended and no
further request is issued. -/
def Gutendex.list_of_books_take {P : Type} (session : Session P) :
    Nat → String → Option P → Nat → List (String × Option P) × List Book × TakeOutcome
  | 0, _, _, _ => ([], [], .outOfFuel)
  | _ + 1, _, _, 0 => ([], [], .suspended)
  | fuel + 1, url, params, k + 1 =>
    let r := session url params
    if raisesForStatus r.status then
      ([(url, params)], [], .transportError r.status r.body)
    else
      match ListBooksResponse.parse_obj r.body with
      | .error e => ([(url, params)], [], .schemaError e)
      | .ok response =>
        if k + 1 ≤ response.results.length then
          ([(url, params)], response.results.take (k + 1), .suspended)
        else
          match response.next with
          | none => ([(url, params)], response.results, .done)
          | some u' =>
            if u' = "" then ([(url, params)], response.results, .done)
            else
              let rest :=
                Gutendex.list_of_books_take session fuel u' none (k + 1 - response.results.length)
              ((url, params) :: rest.1, response.results ++ rest.2.1, rest.2.2)

/-- One mock page of a paginated traversal: the URL it is served at,
the JSON body the server returns for it, and its decoding. -/
structure MockPage where
  url : String
  body : Json
  page : ListBooksResponse

/-- A nonempty chain of mock pages starting at URL `u`: the session
serves each page's body with status 200 at its URL (the first with
the caller's parameters, the rest with none), each body decodes to
the recorded page, each page's `next` holds the following page's URL
(a nonempty string), and the last page's `next` is null. -/
def IsPageChain {P : Type} (session : Session P) : Option P → String → List MockPage → Prop
  | _, _, [] => False
  | params, u, m :: rest =>
    m.url = u ∧ session u params = ⟨200, m.body⟩ ∧
    ListBooksResponse.parse_obj m.body = .ok m.page ∧
    match rest with
    | [] => m.page.next = none
    | m' :: _ => m.page.next = some m'.url ∧ m'.url ≠ "" ∧ IsPageChain session none m'.url rest

/-- URL of the first page of a chain, or the given fallback when the
chain is empty. -/
def chainHeadUrl : List MockPage → String → String
  | [], u => u
  | m :: _, _ => m.url

/-- A (possibly empty) chain of good mock pages starting at URL `u`
whose last `next` link points at `failUrl`: the traversal reaches
`failUrl` after consuming the chain. -/
def IsChainTo {P : Type} (session : Session P) :
    Option P → String → List MockPage → String → Prop
  | _, u, [], failUrl => u = failUrl
  | params, u, m :: rest, failUrl =>
    m.url = u ∧ session u params = ⟨200, m.body⟩ ∧
    ListBooksResponse.parse_obj m.body = .ok m.page ∧
    m.page.next = some (chainHeadUrl rest failUrl) ∧ chainHeadUrl rest failUrl ≠ "" ∧
    IsChainTo session none (chainHeadUrl rest failUrl) rest failUrl

/-- Parameters carried by the request that follows a chain prefix:
the caller's parameters when the prefix is empty (first request),
none afterwards. -/
def failParams {P : Type} (params : Option P) : List MockPage → Option P
  | [] => params
  | _ :: _ => none

/-- The requests a traversal of a chain issues: the first page's URL
with the caller's parameters, every later page's URL with none. -/
def reqsOf {P : Type} (params : Option P) : List MockPage → List (String × Option P)
  | [] => []
  | m :: rest => (m.url, params) :: rest.map (fun m' => (m'.url, (none : Option P)))

/-- Concatenation of the `results` of a chain's pages, in page order. -/
def joinResults (c : List MockPage) : List Book :=
  (c.map (fun m => m.page.results)).flatten

/-- Number of pages of a chain that must be fetched to produce the
first `k` records (all of them when the chain holds fewer than `k`
records, none when `k = 0`). -/
def pagesNeeded : List MockPage → Nat → Nat
  | _, 0 => 0
  | [], _ + 1 => 0
  | m :: rest, k + 1 =>
    if k + 1 ≤ m.page.results.length then 1
    else 1 + pagesNeeded rest (k + 1 - m.page.results.length)

mutual

/-- Equality of JSON documents modulo key ordering: equal leaves,
arrays pointwise equivalent, objects equivalent after a permutation
of their entries (recursively). -/
inductive JsonEquiv : Json → Json → Prop where
  | refl (j : Json) : JsonEquiv j j
  | arr {xs ys : List Json} : JsonListEquiv xs ys → JsonEquiv (.arr xs) (.arr ys)
  | obj {es fs gs : List (String × Json)} :
      JsonEntriesEquiv es fs → fs.Perm gs → JsonEquiv (.obj es) (.obj gs)

/-- Pointwise `JsonEquiv` on lists of JSON values. -/
inductive JsonListEquiv : List Json → List Json → Prop where
  | nil : JsonListEquiv [] []
  | cons {x y : Json} {xs ys : List Json} :
      JsonEquiv x y → JsonListEquiv xs ys → JsonListEquiv (x :: xs) (y :: ys)

/-- Pointwise equality of keys and `JsonEquiv` of values on object
entry lists. -/
inductive JsonEntriesEquiv : List (String × Json) → List (String × Json) → Prop where
  | nil : JsonEntriesEquiv [] []
  | cons {k : String} {v w : Json} {es fs : List (String × Json)} :
      JsonEquiv v w → JsonEntriesEquiv es fs →
      JsonEntriesEquiv ((k, v) :: es) ((k, w) :: fs)

end

theorem JsonEntriesEquiv.rfl : ∀ es : List (String × Json), JsonEntriesEquiv es es
  | [] => .nil
  | (_, v) :: es => .cons (.refl v) (JsonEntriesEquiv.rfl es)

/-- A JSON value that is an integer or null, the wire format of an
optional integer field. -/
def IsOptIntJson (j : Json) : Prop := j = .null ∨ ∃ n : Int, j = .int n

/-- A JSON value that is a string or null, the wire format of an
optional string field. -/
def IsOptStrJson (j : Json) : Prop := j = .null ∨ ∃ s : String, j = .str s

/-- A JSON value that is a boolean or null, the wire format of the
`copyright` field. -/
def IsOptBoolJson (j : Json) : Prop := j = .null ∨ ∃ b : Bool, j = .bool b

/-- A JSON array of strings. -/
def IsStrArrJson (j : Json) : Prop := ∃ ss : List String, j = .arr (ss.map Json.str)

/-- The entries of a wire-format Person object in documentation
order. -/
def personFields (b d : Json) (s : String) : List (String × Json) :=
  [("birth_year", b), ("death_year", d), ("name", .str s)]

/-- A wire-format Person document: an object carrying exactly the
three documented keys, in any order, with `birth_year` and
`death_year` an integer or null and `name` a string. -/
def ValidPersonJson (j : Json) : Prop :=
  ∃ (es : List (String × Json)) (b d : Json) (s : String),
    j = .obj es ∧ es.Perm (personFields b d s) ∧ IsOptIntJson b ∧ IsOptIntJson d

/-- The entries of a wire-format Record (book) object in
documentation order. -/
def bookFields (n : Int) (t : String) (subj auth trans shelves langs cp : Json)
    (mt : String) (fs : List (String × Json)) (dc : Int) : List (String × Json) :=
  [("id", .int n), ("title", .str t), ("subjects", subj), ("authors", auth),
   ("translators", trans), ("bookshelves", shelves), ("languages", langs),
   ("copyright", cp), ("media_type", .str mt), ("formats", .obj fs),
   ("download_count", .int dc)]

/-- A wire-format Record document: an object carrying exactly the
eleven documented keys, in any order, with the documented field
types — string arrays for the tag lists, Person documents in
`authors`/`translators`, boolean or null `copyright`, a
string-to-URL-string `formats` object, and a non-negative
`download_count`. -/
def ValidRecordJson (j : Json) : Prop :=
  ∃ (es : List (String × Json)) (n : Int) (t : String)
    (subj auth trans shelves langs cp : Json) (mt : String)
    (fs : List (String × Json)) (dc : Int),
    j = .obj es ∧
    es.Perm (bookFields n t subj auth trans shelves langs cp mt fs dc) ∧
    IsStrArrJson subj ∧
    (∃ js : List Json, auth = .arr js ∧ ∀ x ∈ js, ValidPersonJson x) ∧
    (∃ js : List Json, trans = .arr js ∧ ∀ x ∈ js, ValidPersonJson x) ∧
    IsStrArrJson shelves ∧ IsStrArrJson langs ∧ IsOptBoolJson cp ∧
    (∀ kv ∈ fs, ∃ s : String, kv.2 = Json.str s) ∧ 0 ≤ dc

/-- The entries of a wire-format Page object in documentation
order. -/
def pageFields (cnt : Int) (nx pv : Json) (rs : List Json) : List (String × Json) :=
  [("count", .int cnt), ("next", nx), ("previous", pv), ("results", .arr rs)]

/-- A wire-format Page document: an object carrying exactly the four
documented keys, in any order, with a non-negative integer `count`,
string-or-null `next` and `previous`, and an array of wire-format
Records as `results`. -/
def ValidPageJson (j : Json) : Prop :=
  ∃ (es : List (String × Json)) (cnt : Int) (nx pv : Json) (rs : List Json),
    j = .obj es ∧ es.Perm (pageFields cnt nx pv rs) ∧
    IsOptStrJson nx ∧ IsOptStrJson pv ∧ (∀ x ∈ rs, ValidRecordJson x) ∧ 0 ≤ cnt

/-- Key lookup in an object is unchanged by permuting the entries, as
long as the keys are distinct (which they are in any object produced
by a JSON parser). -/
theorem findField_perm {es fs : List (String × Json)} (h : es.Perm fs)
    (hnd : (fs.map Prod.fst).Nodup) (k : String) : findField k es = findField k fs := by
  induction h with
  | nil => rfl
  | cons x _ ih =>
    obtain ⟨k', v⟩ := x
    by_cases hk : k' = k
    · simp [findField, hk]
    · simp only [findField, if_neg hk]
      refine ih ?_
      simpa using hnd.of_cons
  | swap x y l =>
    obtain ⟨kx, vx⟩ := x
    obtain ⟨ky, vy⟩ := y
    have hxy : kx ≠ ky := by
      simp only [List.map_cons, List.nodup_cons, List.mem_cons] at hnd
      exact fun hc => hnd.1 (Or.inl hc)
    by_cases h1 : ky = k <;> by_cases h2 : kx = k <;>
      simp_all [findField]
  | trans h1 h2 ih1 ih2 =>
    have hnd' := ((h2.map Prod.fst).nodup_iff).mpr hnd
    exact (ih1 hnd').trans (ih2 hnd)

theorem validateEach_length {α : Type} {val : Json → Option α} :
    ∀ {xs : List Json} {as : List α}, validateEach val xs = some as → as.length = xs.length
  | [], as, h => by
    simp only [validateEach] at h
    simp [← Option.some_inj.mp h]
  | x :: xs, as, h => by
    simp only [validateEach] at h
    cases hv : val x with
    | none => rw [hv] at h; simp at h
    | some a =>
      rw [hv] at h
      cases hr : validateEach val xs with
      | none => rw [hr] at h; simp at h
      | some bs =>
        rw [hr] at h
        simp only at h
        rw [← Option.some_inj.mp h]
        simp [validateEach_length hr]

theorem validateEach_str (ss : List String) :
    validateEach str_validator (ss.map Json.str) = some ss := by
  induction ss with
  | nil => rfl
  | cons s ss ih => simp [validateEach, str_validator, ih]

/-- Serializing a `Person` and validating the result restores the
same `Person`. -/
theorem person_dict_parse (p : Person) : Person.parse_obj (Person.dict p) = .ok p := by
  obtain ⟨b, d, s⟩ := p
  cases b <;> cases d <;> rfl

theorem person_dict_each (ps : List Person) :
    validateEach (fun j => (Person.parse_obj j).toOption) (ps.map Person.dict) = some ps := by
  induction ps with
  | nil => rfl
  | cons p ps ih =>
    have h1 : (Person.parse_obj (Person.dict p)).toOption = some p := by
      rw [person_dict_parse]
      rfl
    simp only [List.map_cons, validateEach, h1, ih]

/-- Serializing a `Book` and validating the result restores the same
`Book`. -/
theorem book_dict_parse (b : Book) : Book.parse_obj (Book.dict b) = .ok b := by
  obtain ⟨n, t, subj, auth, trans, shelves, langs, cp, mt, fs, dc⟩ := b
  cases cp <;>
    simp [Book.dict, Book.parse_obj, requiredField, optionalField, findField, listOf,
          int_validator, str_validator, bool_validator, dict_validator,
          validateEach_str, person_dict_each] <;>
    rfl

/-- `Person.parse_obj` depends on an object only through key lookup,
so it is invariant under entry permutation when keys are distinct. -/
theorem person_parse_perm {es fs : List (String × Json)} (hperm : es.Perm fs)
    (hnd : (fs.map Prod.fst).Nodup) :
    Person.parse_obj (.obj es) = Person.parse_obj (.obj fs) := by
  simp only [Person.parse_obj, optionalField, requiredField, findField_perm hperm hnd]

/-- `Book.parse_obj` is invariant under entry permutation when keys
are distinct. -/
theorem book_parse_perm {es fs : List (String × Json)} (hperm : es.Perm fs)
    (hnd : (fs.map Prod.fst).Nodup) :
    Book.parse_obj (.obj es) = Book.parse_obj (.obj fs) := by
  simp only [Book.parse_obj, optionalField, requiredField, findField_perm hperm hnd]

/-- `ListBooksResponse.parse_obj` is invariant under entry
permutation when keys are distinct. -/
theorem page_parse_perm {es fs : List (String × Json)} (hperm : es.Perm fs)
    (hnd : (fs.map Prod.fst).Nodup) :
    ListBooksResponse.parse_obj (.obj es) = ListBooksResponse.parse_obj (.obj fs) := by
  simp only [ListBooksResponse.parse_obj, optionalField, requiredField, findField_perm hperm hnd]

/-- A wire-format Person document validates, and serializing the
decoded value reproduces the document up to key ordering. -/
theorem valid_person_parse {j : Json} (h : ValidPersonJson j) :
    ∃ p : Person, Person.parse_obj j = .ok p ∧ JsonEquiv (Person.dict p) j := by
  obtain ⟨es, b, d, s, rfl, hperm, hb, hd⟩ := h
  have hnd : ((personFields b d s).map Prod.fst).Nodup := by
    show (["birth_year", "death_year", "name"] : List String).Nodup
    decide
  have hpp := person_parse_perm hperm hnd
  rcases hb with rfl | ⟨n, rfl⟩ <;> rcases hd with rfl | ⟨m, rfl⟩ <;>
    exact ⟨_, hpp.trans rfl, JsonEquiv.obj (JsonEntriesEquiv.rfl _) hperm.symm⟩

/-- Element-wise version of `valid_person_parse` for the
`authors`/`translators` arrays. -/
theorem valid_person_list {js : List Json} (h : ∀ x ∈ js, ValidPersonJson x) :
    ∃ ps : List Person,
      validateEach (fun j => (Person.parse_obj j).toOption) js = some ps ∧
      JsonListEquiv (ps.map Person.dict) js := by
  induction js with
  | nil => exact ⟨[], rfl, .nil⟩
  | cons x xs ih =>
    obtain ⟨p, hp, he⟩ := valid_person_parse (h x (by simp))
    obtain ⟨ps, hps, hes⟩ := ih (fun y hy => h y (by simp [hy]))
    have h1 : (Person.parse_obj x).toOption = some p := by
      rw [hp]
      rfl
    exact ⟨p :: ps, by simp only [validateEach, h1, hps], .cons he hes⟩

/-- A wire-format Record document validates, and serializing the
decoded value reproduces the document up to key ordering. -/
theorem valid_book_parse {j : Json} (h : ValidRecordJson j) :
    ∃ b : Book, Book.parse_obj j = .ok b ∧ JsonEquiv (Book.dict b) j := by
  obtain ⟨es, n, t, subj, auth, trans, shelves, langs, cp, mt, fs, dc, rfl, hperm,
          ⟨ssub, rfl⟩, ⟨ja, rfl, hja⟩, ⟨jt, rfl, hjt⟩, ⟨sshe, rfl⟩, ⟨slan, rfl⟩,
          hcp, hfs, hdc⟩ := h
  have hnd : ((bookFields n t (.arr (ssub.map Json.str)) (.arr ja) (.arr jt)
      (.arr (sshe.map Json.str)) (.arr (slan.map Json.str)) cp mt fs dc).map
        Prod.fst).Nodup := by
    show (["id", "title", "subjects", "authors", "translators", "bookshelves",
           "languages", "copyright", "media_type", "formats", "download_count"] :
            List String).Nodup
    decide
  have hpp := book_parse_perm hperm hnd
  obtain ⟨ps, hps, hpse⟩ := valid_person_list hja
  obtain ⟨ts, hts, htse⟩ := valid_person_list hjt
  rcases hcp with rfl | ⟨cb, rfl⟩
  · rw [hpp]
    refine ⟨⟨n, t, ssub, ps, ts, sshe, slan, none, mt, fs, dc⟩, ?_, ?_⟩
    · simp [Book.parse_obj, bookFields, requiredField, optionalField, findField, listOf,
            int_validator, str_validator, bool_validator, dict_validator,
            validateEach_str, hps, hts]
      rfl
    · refine JsonEquiv.obj ?_ hperm.symm
      exact .cons (.refl _) (.cons (.refl _) (.cons (.refl _)
        (.cons (.arr hpse) (.cons (.arr htse) (.cons (.refl _) (.cons (.refl _)
        (.cons (.refl _) (.cons (.refl _) (.cons (.refl _) (.cons (.refl _) .nil))))))))))
  · rw [hpp]
    refine ⟨⟨n, t, ssub, ps, ts, sshe, slan, some cb, mt, fs, dc⟩, ?_, ?_⟩
    · simp [Book.parse_obj, bookFields, requiredField, optionalField, findField, listOf,
            int_validator, str_validator, bool_validator, dict_validator,
            validateEach_str, hps, hts]
      rfl
    · refine JsonEquiv.obj ?_ hperm.symm
      exact .cons (.refl _) (.cons (.refl _) (.cons (.refl _)
        (.cons (.arr hpse) (.cons (.arr htse) (.cons (.refl _) (.cons (.refl _)
        (.cons (.refl _) (.cons (.refl _) (.cons (.refl _) (.cons (.refl _) .nil))))))))))

/-- Element-wise version of `valid_book_parse` for the `results`
array, recording that validation preserves the element count. -/
theorem valid_book_list {js : List Json} (h : ∀ x ∈ js, ValidRecordJson x) :
    ∃ bs : List Book,
      validateEach (fun j => (Book.parse_obj j).toOption) js = some bs ∧
      bs.length = js.length := by
  induction js with
  | nil => exact ⟨[], rfl, rfl⟩
  | cons x xs ih =>
    obtain ⟨b, hb, -⟩ := valid_book_parse (h x (by simp))
    obtain ⟨bs, hbs, hlen⟩ := ih (fun y hy => h y (by simp [hy]))
    have h1 : (Book.parse_obj x).toOption = some b := by
      rw [hb]
      rfl
    exact ⟨b :: bs, by simp only [validateEach, h1, hbs], by simp [hlen]⟩

theorem reqsOf_none {P : Type} (c : List MockPage) :
    reqsOf (none : Option P) c = c.map (fun m => (m.url, (none : Option P))) := by
  cases c <;> simp [reqsOf]

theorem failParams_none {P : Type} (c : List MockPage) :
    failParams (none : Option P) c = none := by
  cases c <;> rfl

/-- Running the generator to exhaustion over a chain of pages
requests each page once in order, with the caller's parameters on the
first request only, and yields the concatenation of the pages'
results. -/
theorem list_of_books_chain {P : Type} (session : Session P) (c : List MockPage) :
    ∀ (params : Option P) (u : String) (fuel : Nat),
      IsPageChain session params u c → c.length ≤ fuel →
      Gutendex.list_of_books session fuel u params = (reqsOf params c, joinResults c, .done) := by
  induction c with
  | nil =>
    intro params u fuel h _
    exact absurd h (by simp [IsPageChain])
  | cons m rest ih =>
    intro params u fuel h hf
    simp only [IsPageChain] at h
    obtain ⟨hu, hs, hp, hnext⟩ := h
    cases fuel with
    | zero => simp at hf
    | succ f =>
      subst hu
      cases rest with
      | nil =>
        simp [Gutendex.list_of_books, hs, raisesForStatus, hp, hnext, reqsOf, joinResults]
      | cons m' rest' =>
        obtain ⟨hn, hne, hc⟩ := hnext
        have hlen : (m' :: rest').length ≤ f := by simpa using hf
        simp [Gutendex.list_of_books, hs, raisesForStatus, hp, hn, hne, reqsOf, joinResults,
              ih none m'.url f hc hlen, reqsOf_none]

/-- Running the generator over a chain of good pages whose last
`next` link points at a page that answers with an error status: the
traversal requests each good page and then the failing page, raises
carrying that status and body without decoding it, issues no further
request, and has already yielded the records of the good pages. -/
theorem list_of_books_chainTo {P : Type} (session : Session P) (c : List MockPage) :
    ∀ (params : Option P) (u failUrl : String) (fuel : Nat),
      IsChainTo session params u c failUrl →
      raisesForStatus (session failUrl (failParams params c)).status = true →
      c.length + 1 ≤ fuel →
      Gutendex.list_of_books session fuel u params =
        (reqsOf params c ++ [(failUrl, failParams params c)], joinResults c,
         .transportError (session failUrl (failParams params c)).status
           (session failUrl (failParams params c)).body) := by
  induction c with
  | nil =>
    intro params u failUrl fuel h hr hf
    simp only [IsChainTo] at h
    subst h
    cases fuel with
    | zero => simp at hf
    | succ f =>
      simp [Gutendex.list_of_books, failParams, reqsOf, joinResults, failParams] at hr ⊢
      simp [hr]
  | cons m rest ih =>
    intro params u failUrl fuel h hr hf
    simp only [IsChainTo] at h
    obtain ⟨hu, hs, hp, hn, hne, hc⟩ := h
    cases fuel with
    | zero => simp at hf
    | succ f =>
      subst hu
      have hfp : failParams params (m :: rest) = none := rfl
      rw [hfp] at hr
      rw [← failParams_none (P := P) rest] at hr
      have hlen : rest.length + 1 ≤ f := by simpa [Nat.succ_le_succ_iff] using hf
      have hreq : reqsOf params (m :: rest) =
          (m.url, params) :: rest.map (fun m' => (m'.url, (none : Option P))) := rfl
      simp [Gutendex.list_of_books, hs, raisesForStatus, hp, hn, hne, hreq, hfp, joinResults,
            ih none (chainHeadUrl rest failUrl) failUrl f hc hr hlen, reqsOf_none,
            failParams_none]

theorem pagesNeeded_nil (k : Nat) : pagesNeeded [] k = 0 := by
  cases k <;> rfl

/-- Consuming only the first `k` records of a traversal over a chain
requests exactly the pages needed to produce them — no page beyond —
and yields exactly the first `k` records of the chain. -/
theorem list_of_books_take_chain {P : Type} (session : Session P) (c : List MockPage) :
    ∀ (params : Option P) (u : String) (fuel k : Nat),
      IsPageChain session params u c → c.length ≤ fuel →
      (Gutendex.list_of_books_take session fuel u params k).1 =
          reqsOf params (c.take (pagesNeeded c k)) ∧
      (Gutendex.list_of_books_take session fuel u params k).2.1 = (joinResults c).take k := by
  induction c with
  | nil =>
    intro params u fuel k h _
    exact absurd h (by simp [IsPageChain])
  | cons m rest ih =>
    intro params u fuel k h hf
    simp only [IsPageChain] at h
    obtain ⟨hu, hs, hp, hnext⟩ := h
    cases fuel with
    | zero => simp at hf
    | succ f =>
      subst hu
      cases k with
      | zero => simp [Gutendex.list_of_books_take, pagesNeeded, reqsOf]
      | succ k' =>
        by_cases hk : k' + 1 ≤ m.page.results.length
        · constructor
          · simp [Gutendex.list_of_books_take, hs, raisesForStatus, hp, hk, pagesNeeded, reqsOf]
          · simp [Gutendex.list_of_books_take, hs, raisesForStatus, hp, hk, joinResults,
                  List.take_append_of_le_length hk]
        · cases rest with
          | nil =>
            have hlen : m.page.results.length ≤ k' + 1 := by omega
            constructor
            · simp [Gutendex.list_of_books_take, hs, raisesForStatus, hp, hk, hnext,
                    pagesNeeded, pagesNeeded_nil, reqsOf]
            · simp [Gutendex.list_of_books_take, hs, raisesForStatus, hp, hk, hnext,
                    joinResults, List.take_of_length_le hlen]
          | cons m' rest' =>
            obtain ⟨hn, hne, hc⟩ := hnext
            have hlen : (m' :: rest').length ≤ f := by simpa using hf
            obtain ⟨ih1, ih2⟩ := ih none m'.url f (k' + 1 - m.page.results.length) hc hlen
            have ht : m.page.results.take (k' + 1) = m.page.results :=
              List.take_of_length_le (by omega)
            have hreq : ∀ l : List MockPage, reqsOf params (m :: l) =
                (m.url, params) :: l.map (fun m' => (m'.url, (none : Option P))) :=
              fun l => rfl
            constructor
            · simp [Gutendex.list_of_books_take, hs, raisesForStatus, hp, hk, hn, hne, ih1,
                    pagesNeeded, Nat.one_add, hreq, reqsOf_none, List.map_take]
            · simp [Gutendex.list_of_books_take, hs, raisesForStatus, hp, hk, hn, hne, ih2,
                    joinResults, List.take_append_eq_append_take, ht]

/-- A concrete wire-format Person document used in concrete checks. -/
def personJson0 : Json :=
  .obj [("birth_year", .int 1775), ("death_year", .int 1817), ("name", .str "Austen, Jane")]

/-- The decoding of `personJson0`. -/
def person0 : Person := ⟨some 1775, some 1817, "Austen, Jane"⟩

/-- A concrete wire-format Record document. -/
def bookJson0 : Json :=
  .obj [("id", .int 1342), ("title", .str "Pride and Prejudice"),
        ("subjects", .arr [.str "Fiction"]),
        ("authors", .arr [personJson0]),
        ("translators", .arr []),
        ("bookshelves", .arr [.str "Best Books Ever Listings"]),
        ("languages", .arr [.str "en"]),
        ("copyright", .bool false),
        ("media_type", .str "Text"),
        ("formats", .obj [("text/html", .str "https://www.gutenberg.org/ebooks/1342.html")]),
        ("download_count", .int 50000)]

/-- The decoding of `bookJson0`. -/
def book0 : Book :=
  ⟨1342, "Pride and Prejudice", ["Fiction"], [person0], [], ["Best Books Ever Listings"],
   ["en"], some false, "Text",
   [("text/html", .str "https://www.gutenberg.org/ebooks/1342.html")], 50000⟩

/-- URL of the second mock page. -/
def page2Url : String := "https://gutendex.com/books/?page=2"

/-- Body of the first mock page: one record, `next` pointing at the
second page. -/
def pageBody1 : Json :=
  .obj [("count", .int 2), ("next", .str page2Url), ("previous", .null),
        ("results", .arr [bookJson0])]

/-- Body of the second mock page: one record, `next` null. -/
def pageBody2 : Json :=
  .obj [("count", .int 2), ("next", .null), ("previous", .str Gutendex.endpoint),
        ("results", .arr [bookJson0])]

/-- The decoding of `pageBody1`. -/
def page1 : ListBooksResponse := ⟨2, some page2Url, none, [book0]⟩

/-- The decoding of `pageBody2`. -/
def page2 : ListBooksResponse := ⟨2, none, some Gutendex.endpoint, [book0]⟩

/-- A mock session serving the two-page traversal. -/
def session2 : Session String := fun u _ =>
  if u = Gutendex.endpoint then ⟨200, pageBody1⟩
  else if u = page2Url then ⟨200, pageBody2⟩
  else ⟨404, .null⟩

/-- The two-page chain served by `session2`. -/
def chain2 : List MockPage :=
  [⟨Gutendex.endpoint, pageBody1, page1⟩, ⟨page2Url, pageBody2, page2⟩]

theorem chain2_is_chain :
    IsPageChain session2 (some "languages=fr") Gutendex.endpoint chain2 := by
  show IsPageChain session2 (some "languages=fr") Gutendex.endpoint
    [⟨Gutendex.endpoint, pageBody1, page1⟩, ⟨page2Url, pageBody2, page2⟩]
  exact ⟨rfl, rfl, rfl, rfl, by decide, rfl, rfl, rfl, rfl⟩

/-- C1: for every finite chain of pages in which each page's `next`
links to the following page and the last page's `next` is null,
running `list_of_books` from the endpoint yields exactly the
concatenation of the pages' `results`, in page order and in array
order within each page, and issues exactly one GET request per page
(`c.length` requests for `c.length` pages). -/
theorem claim1_pagination_chain {P : Type} (session : Session P) (params : Option P)
    (c : List MockPage) (fuel : Nat)
    (hchain : IsPageChain session params Gutendex.endpoint c) (hfuel : c.length ≤ fuel) :
    Gutendex.list_of_books session fuel Gutendex.endpoint params =
      (reqsOf params c, joinResults c, .done) ∧
    (Gutendex.list_of_books session fuel Gutendex.endpoint params).1.length = c.length := by
  have h := list_of_books_chain session c params Gutendex.endpoint fuel hchain hfuel
  refine ⟨h, ?_⟩
  rw [h]
  cases c with
  | nil => simp [IsPageChain] at hchain
  | cons m rest => simp [reqsOf]

/-- Concrete two-page instance of C1: both pages are fetched once, in
order, and the two records are yielded in order. -/
theorem claim1_pagination_chain_witness :
    Gutendex.list_of_books session2 2 Gutendex.endpoint (some "languages=fr") =
      (reqsOf (some "languages=fr") chain2, joinResults chain2, .done) ∧
    (Gutendex.list_of_books session2 2 Gutendex.endpoint (some "languages=fr")).1.length =
      chain2.length :=
  claim1_pagination_chain session2 (some "languages=fr") chain2 2 chain2_is_chain
    (by decide)

/-- C9: the caller-supplied query parameters are attached only to the
first request of a traversal; every subsequent request addresses the
previous page's `next` URL verbatim (the chain links) and carries no
additional parameters. -/
theorem claim9_params_first_request_only {P : Type} (session : Session P) (params : Option P)
    (c : List MockPage) (fuel : Nat)
    (hchain : IsPageChain session params Gutendex.endpoint c) (hfuel : c.length ≤ fuel) :
    (Gutendex.list_of_books session fuel Gutendex.endpoint params).1 =
      (Gutendex.endpoint, params) :: c.tail.map (fun m => (m.url, (none : Option P))) := by
  have h := list_of_books_chain session c params Gutendex.endpoint fuel hchain hfuel
  rw [h]
  cases c with
  | nil => simp [IsPageChain] at hchain
  | cons m rest =>
    simp only [IsPageChain] at hchain
    obtain ⟨hu, -, -, -⟩ := hchain
    simp [reqsOf, hu]

/-- Concrete two-page instance of C9: the language filter rides only
on the first request; the second request is the `next` URL with no
parameters. -/
theorem claim9_params_first_request_only_witness :
    (Gutendex.list_of_books session2 2 Gutendex.endpoint (some "languages=fr")).1 =
      (Gutendex.endpoint, some "languages=fr") ::
        chain2.tail.map (fun m => (m.url, (none : Option String))) :=
  claim9_params_first_request_only session2 (some "languages=fr") chain2 2 chain2_is_chain
    (by decide)

/-- C10: if a decoded page's `next` field is the empty string (a
non-null but falsy value), the traversal stops after yielding that
page's records, issuing no further request: `if not url` treats the
empty string like null. -/
theorem claim10_empty_next_stops {P : Type} (session : Session P) (params : Option P)
    (u : String) (fuel : Nat) (body : Json) (page : ListBooksResponse)
    (hresp : session u params = ⟨200, body⟩)
    (hparse : ListBooksResponse.parse_obj body = .ok page)
    (hnext : page.next = some "")
    (hfuel : 1 ≤ fuel) :
    Gutendex.list_of_books session fuel u params = ([(u, params)], page.results, .done) := by
  cases fuel with
  | zero => simp at hfuel
  | succ f => simp [Gutendex.list_of_books, hresp, raisesForStatus, hparse, hnext]

/-- Body of a mock page whose `next` is the empty string. -/
def pageBodyE : Json :=
  .obj [("count", .int 1), ("next", .str ""), ("previous", .null),
        ("results", .arr [bookJson0])]

/-- The decoding of `pageBodyE`. -/
def pageE : ListBooksResponse := ⟨1, some "", none, [book0]⟩

/-- A mock session serving `pageBodyE` at the endpoint. -/
def sessionE : Session Unit := fun u _ =>
  if u = Gutendex.endpoint then ⟨200, pageBodyE⟩ else ⟨404, .null⟩

/-- Concrete instance of C10: one request, one record yielded, clean
termination on the empty-string `next`. -/
theorem claim10_empty_next_stops_witness :
    Gutendex.list_of_books sessionE 5 Gutendex.endpoint (some ()) =
      ([(Gutendex.endpoint, some ())], pageE.results, .done) :=
  claim10_empty_next_stops sessionE (some ()) Gutendex.endpoint 5 pageBodyE pageE rfl rfl rfl
    (by decide)

/-- C4: if the HTTP layer returns an error status for any page
request, the traversal raises a transport error carrying that status
and body at the point the page is requested — before the body is
decoded (the body here is arbitrary) — issues no retry and no further
request, and the records of earlier pages have already been
yielded. -/
theorem claim4_transport_error {P : Type} (session : Session P) (params : Option P)
    (c : List MockPage) (failUrl : String) (fuel : Nat)
    (hchain : IsChainTo session params Gutendex.endpoint c failUrl)
    (hstatus : raisesForStatus (session failUrl (failParams params c)).status = true)
    (hfuel : c.length + 1 ≤ fuel) :
    Gutendex.list_of_books session fuel Gutendex.endpoint params =
      (reqsOf params c ++ [(failUrl, failParams params c)], joinResults c,
       .transportError (session failUrl (failParams params c)).status
         (session failUrl (failParams params c)).body) :=
  list_of_books_chainTo session c params Gutendex.endpoint failUrl fuel hchain hstatus hfuel

/-- A mock session that serves the first page and then answers 500
with a diagnostic body on every other URL. -/
def sessionErr : Session String := fun u _ =>
  if u = Gutendex.endpoint then ⟨200, pageBody1⟩
  else ⟨500, .str "internal server error"⟩

/-- The one-page good prefix served by `sessionErr`. -/
def chainErr : List MockPage := [⟨Gutendex.endpoint, pageBody1, page1⟩]

/-- Concrete instance of C4: page 1 succeeds and its record is
yielded, the request for page 2 answers 500, the traversal raises
with status 500 and the error body, and no further request is
issued. -/
theorem claim4_transport_error_witness :
    Gutendex.list_of_books sessionErr 3 Gutendex.endpoint (some "languages=fr") =
      (reqsOf (some "languages=fr") chainErr ++ [(page2Url, none)], joinResults chainErr,
       .transportError 500 (.str "internal server error")) :=
  claim4_transport_error sessionErr (some "languages=fr") chainErr page2Url 3
    ⟨rfl, rfl, rfl, rfl, by decide, rfl⟩ (by decide) (by decide)

/-- C6: if the caller consumes only the first `k` records and stops,
the requests issued are exactly those for the pages needed to produce
the first `k` records — no request for any page beyond them — and the
records produced are the first `k` of the traversal. -/
theorem claim6_early_termination {P : Type} (session : Session P) (params : Option P)
    (c : List MockPage) (fuel k : Nat)
    (hchain : IsPageChain session params Gutendex.endpoint c) (hfuel : c.length ≤ fuel) :
    (Gutendex.list_of_books_take session fuel Gutendex.endpoint params k).1 =
      reqsOf params (c.take (pagesNeeded c k)) ∧
    (Gutendex.list_of_books_take session fuel Gutendex.endpoint params k).2.1 =
      (joinResults c).take k :=
  list_of_books_take_chain session c params Gutendex.endpoint fuel k hchain hfuel

/-- Concrete instance of C6: consuming one record of the two-page
chain requests only the first page. -/
theorem claim6_early_termination_witness :
    (Gutendex.list_of_books_take session2 2 Gutendex.endpoint (some "languages=fr") 1).1 =
      reqsOf (some "languages=fr") (chain2.take (pagesNeeded chain2 1)) ∧
    (Gutendex.list_of_books_take session2 2 Gutendex.endpoint (some "languages=fr") 1).2.1 =
      (joinResults chain2).take 1 :=
  claim6_early_termination session2 (some "languages=fr") chain2 2 1 chain2_is_chain
    (by decide)

/-- C3: decoding the encoding of a value restores it field for field
— for every `Person` and every `Book` — and for every wire-format
document, decoding succeeds and re-encoding the decoded value
reproduces the original document up to key ordering (recursively
through nested objects). -/
theorem claim3_round_trip :
    (∀ p : Person, Person.parse_obj (Person.dict p) = .ok p) ∧
    (∀ b : Book, Book.parse_obj (Book.dict b) = .ok b) ∧
    (∀ j : Json, ValidPersonJson j →
      ∃ p : Person, Person.parse_obj j = .ok p ∧ JsonEquiv (Person.dict p) j) ∧
    (∀ j : Json, ValidRecordJson j →
      ∃ b : Book, Book.parse_obj j = .ok b ∧ JsonEquiv (Book.dict b) j) :=
  ⟨person_dict_parse, book_dict_parse,
   fun _ h => valid_person_parse h, fun _ h => valid_book_parse h⟩

theorem valid_personJson0 : ValidPersonJson personJson0 :=
  ⟨_, .int 1775, .int 1817, "Austen, Jane", rfl, List.Perm.refl _,
   Or.inr ⟨1775, rfl⟩, Or.inr ⟨1817, rfl⟩⟩

theorem valid_bookJson0 : ValidRecordJson bookJson0 := by
  refine ⟨_, 1342, "Pride and Prejudice", .arr [.str "Fiction"], .arr [personJson0], .arr [],
          .arr [.str "Best Books Ever Listings"], .arr [.str "en"], .bool false, "Text",
          [("text/html", .str "https://www.gutenberg.org/ebooks/1342.html")], 50000,
          rfl, List.Perm.refl _, ⟨["Fiction"], rfl⟩, ⟨[personJson0], rfl, ?_⟩,
          ⟨[], rfl, ?_⟩, ⟨["Best Books Ever Listings"], rfl⟩, ⟨["en"], rfl⟩,
          Or.inr ⟨false, rfl⟩, ?_, by decide⟩
  · intro x hx
    rw [List.mem_singleton] at hx
    subst hx
    exact valid_personJson0
  · intro x hx
    simp at hx
  · intro kv hkv
    rw [List.mem_singleton] at hkv
    subst hkv
    exact ⟨_, rfl⟩

/-- Concrete instance of C3 on the sample record document. -/
theorem claim3_round_trip_witness :
    ∃ b : Book, Book.parse_obj bookJson0 = .ok b ∧ JsonEquiv (Book.dict b) bookJson0 :=
  claim3_round_trip.2.2.2 bookJson0 valid_bookJson0

/-- C5: every wire-format page document decodes successfully, and the
decoded page's `results` list has exactly the length of the input
array — with no bound on that length, so a page carrying more than 32
records is not an error; only structural mismatches fail. -/
theorem claim5_valid_page_decodes (es : List (String × Json)) (cnt : Int) (nx pv : Json)
    (rs : List Json) (hperm : es.Perm (pageFields cnt nx pv rs))
    (hnx : IsOptStrJson nx) (hpv : IsOptStrJson pv)
    (hrs : ∀ x ∈ rs, ValidRecordJson x) (_hcnt : 0 ≤ cnt) :
    ∃ resp : ListBooksResponse,
      ListBooksResponse.parse_obj (.obj es) = .ok resp ∧ resp.results.length = rs.length := by
  have hnd : ((pageFields cnt nx pv rs).map Prod.fst).Nodup := by
    show (["count", "next", "previous", "results"] : List String).Nodup
    decide
  have hpp := page_parse_perm hperm hnd
  obtain ⟨bs, hbs, hlen⟩ := valid_book_list hrs
  rcases hnx with rfl | ⟨sx, rfl⟩ <;> rcases hpv with rfl | ⟨sp, rfl⟩ <;>
  · rw [hpp]
    simp [ListBooksResponse.parse_obj, pageFields, requiredField, optionalField, findField,
          listOf, int_validator, str_validator, hbs]
    exact ⟨_, rfl, by simpa using hlen⟩

/-- Entries of a wire-format page carrying 33 records — more than the
32 the API ever returns per page. -/
def bigPageEntries : List (String × Json) :=
  [("count", .int 33), ("next", .null), ("previous", .null),
   ("results", .arr (List.replicate 33 bookJson0))]

/-- Concrete instance of C5 on a 33-record page: decoding succeeds
and the decoded `results` length is the input length. -/
theorem claim5_valid_page_decodes_witness :
    ∃ resp : ListBooksResponse,
      ListBooksResponse.parse_obj (.obj bigPageEntries) = .ok resp ∧
      resp.results.length = (List.replicate 33 bookJson0).length :=
  claim5_valid_page_decodes bigPageEntries 33 .null .null (List.replicate 33 bookJson0)
    (List.Perm.refl _) (Or.inl rfl) (Or.inl rfl)
    (fun x hx => by
      rw [List.eq_of_mem_replicate hx]
      exact valid_bookJson0)
    (by decide)

/-- C8: a Person document carrying an explicit `"birth_year": null`
decodes to a `Person` with an absent birth_year, and re-encoding that
`Person` emits the `birth_year` key with a null value — the key is
not omitted. -/
theorem claim8_birth_year_null (es : List (String × Json)) (p : Person)
    (hb : findField "birth_year" es = some Json.null)
    (hp : Person.parse_obj (.obj es) = .ok p) :
    p.birth_year = none ∧
    ∃ rest, Person.dict p = .obj (("birth_year", Json.null) :: rest) := by
  have heq : Person.parse_obj (.obj es) =
      Except.bind (optionalField es "birth_year" int_validator) (fun b =>
        Except.bind (optionalField es "death_year" int_validator) (fun d =>
          Except.bind (requiredField es "name" str_validator) (fun nm =>
            Except.ok ⟨b, d, nm⟩))) := rfl
  have hbf : optionalField es "birth_year" int_validator = .ok none := by
    simp [optionalField, hb]
  rw [heq, hbf] at hp
  simp only [Except.bind] at hp
  cases hd : optionalField es "death_year" int_validator with
  | error e =>
    rw [hd] at hp
    simp [Except.bind] at hp
  | ok dv =>
    rw [hd] at hp
    simp only [Except.bind] at hp
    cases hn : requiredField es "name" str_validator with
    | error e =>
      rw [hn] at hp
      simp [Except.bind] at hp
    | ok nm =>
      rw [hn] at hp
      simp only [Except.bind] at hp
      injection hp with hp2
      subst hp2
      exact ⟨rfl, _, rfl⟩

/-- Concrete instance of C8. -/
theorem claim8_birth_year_null_witness :
    (⟨none, some 1817, "X"⟩ : Person).birth_year = none ∧
    ∃ rest, Person.dict (⟨none, some 1817, "X"⟩ : Person) =
      .obj (("birth_year", Json.null) :: rest) :=
  claim8_birth_year_null
    [("birth_year", .null), ("death_year", .int 1817), ("name", .str "X")]
    ⟨none, some 1817, "X"⟩ rfl rfl

/-- A record document whose `download_count` is the negative integer
-5 and whose `formats` object maps a format name to the number 3
rather than a URL string. -/
def badBookJson : Json :=
  .obj [("id", .int 1), ("title", .str "t"), ("subjects", .arr []), ("authors", .arr []),
        ("translators", .arr []), ("bookshelves", .arr []), ("languages", .arr []),
        ("copyright", .null), ("media_type", .str "Text"),
        ("formats", .obj [("text/plain", .int 3)]), ("download_count", .int (-5))]

/-- The decoding the model produces for `badBookJson`. -/
def badBook : Book :=
  ⟨1, "t", [], [], [], [], [], none, "Text", [("text/plain", .int 3)], -5⟩

/-- A page document containing `badBookJson` as its only record. -/
def badPageJson : Json :=
  .obj [("count", .int 1), ("next", .null), ("previous", .null),
        ("results", .arr [badBookJson])]

/-- C2 counterexample: decoding accepts a page whose record carries a
negative `download_count` and a `formats` mapping whose value is not
a URL string — the claim says both must be rejected, but the declared
model checks only `int` and bare `dict`. -/
theorem claim2_counterexample :
    ListBooksResponse.parse_obj badPageJson = .ok ⟨1, none, none, [badBook]⟩ := rfl

/-- A record document with the well-typed fixed fields, an arbitrary
`formats` object and an arbitrary integer `download_count`. -/
def bookJsonFD (fs : List (String × Json)) (n : Int) : Json :=
  .obj [("id", .int 1), ("title", .str "t"), ("subjects", .arr []), ("authors", .arr []),
        ("translators", .arr []), ("bookshelves", .arr []), ("languages", .arr []),
        ("copyright", .null), ("media_type", .str "Text"),
        ("formats", .obj fs), ("download_count", .int n)]

/-- C2 amended: decoding validates presence and type of each field
per the declared model, not per the documented refinements — it
accepts any JSON object whatsoever as `formats` (the values need not
be URL strings) and any integer as `download_count`, including
negative ones. -/
theorem claim2_amended (fs : List (String × Json)) (n : Int) :
    Book.parse_obj (bookJsonFD fs n) =
      .ok ⟨1, "t", [], [], [], [], [], none, "Text", fs, n⟩ := rfl

/-- C7 counterexample: a page whose `count` field is the string "7" —
a JSON type that does not match the declared integer field — is not
rejected: decoding succeeds and silently coerces the string to the
integer 7. -/
theorem claim7_counterexample :
    ListBooksResponse.parse_obj
        (.obj [("count", .str "7"), ("next", .null), ("previous", .null),
               ("results", .arr [])]) =
      .ok ⟨7, none, none, []⟩ := rfl

/-- C7 amended: decoding rejects inputs whose field values cannot be
converted to the declared types (non-numeric strings for integer
fields, missing required fields), but values the validators can
convert are silently coerced rather than rejected: numeric strings
become integers, numbers become strings. -/
theorem claim7_amended :
    (∀ n : Int, str_validator (.int n) = some (toString n)) ∧
    ListBooksResponse.parse_obj
        (.obj [("count", .str "7"), ("next", .null), ("previous", .null),
               ("results", .arr [])]) = .ok ⟨7, none, none, []⟩ ∧
    ListBooksResponse.parse_obj
        (.obj [("count", .str "seven"), ("next", .null), ("previous", .null),
               ("results", .arr [])]) = .error (.wrongType "count") ∧
    ListBooksResponse.parse_obj
        (.obj [("count", .int 0), ("next", .null), ("previous", .null)]) =
      .error (.missing "results") ∧
    Person.parse_obj
        (.obj [("birth_year", .null), ("death_year", .null), ("name", .int 42)]) =
      .ok ⟨none, none, "42"⟩ :=
  ⟨fun _ => rfl, rfl, rfl, rfl, rfl⟩
